import Mathlib

/-!
Verification of the MCP connection and tool-invocation subsystem of the
personal-ai repository: the schema translator (mcpSchemaToZod), the relational
store (MCPDatabase), the connection manager (MCPConnectionManager), the
connect race against the 10-second timer, and the API route handlers
(test-connection, execute, delete-server).  Each TypeScript function is
shallowly embedded as a Lean definition; machine-level concerns (timestamps,
logging) that no property depends on are elided and noted in comments.
-/

namespace PersonalAI

/-- JSON-representable values.  JSON.stringify followed by JSON.parse is the
identity on exactly these values (no undefined, functions or cyclic data), so
columns that the code stores as JSON strings are modelled as holding the value
itself. -/
inductive JsonValue where
  | str (s : String)
  | num (n : Int)
  | boolean (b : Bool)
  | null
  | arr (elems : List JsonValue)
  | obj (fields : List (String × JsonValue))

/-- The shape the translator reads off an MCP input schema: the top-level
type field, the properties mapping (each property reduced to its own type
field, none when absent or not a string), and the required list.  Absent
fields are none; in the source they are undefined and hence falsy. -/
structure MCPSchema where
  type : Option String := none
  properties : Option (List (String × Option String)) := none
  required : Option (List String) := none

/-- Zod field schemas produced by mcpSchemaToZod: the five base validators the
source selects from, the optional wrapper added by schema.partial(), and
zinvalid for the undefined slot produced when a required key is missing from
properties (parsing such a shape raises a TypeError, modelled as none). -/
inductive ZField where
  | zstring
  | znumber
  | zboolean
  | zarray
  | zunknown
  | zoptional (f : ZField)
  | zinvalid

/-- The base Zod validator chosen for a declared property type, following the
if/else chain of the source: string, number, boolean, array, and z.unknown()
for everything else. -/
def baseField (t : Option String) : ZField :=
  if t = some "string" then ZField.zstring
  else if t = some "number" then ZField.znumber
  else if t = some "boolean" then ZField.zboolean
  else if t = some "array" then ZField.zarray
  else ZField.zunknown

/-- JS object property lookup on an entry list (first match; entry lists built
from Object.entries have unique keys). -/
def lookupEntry {α : Type} (entries : List (String × α)) (key : String) : Option α :=
  (entries.find? (fun p => p.1 == key)).map (fun p => p.2)

/-- The shape of merging two Zod object schemas, A.merge(B): the JS spread
of the two shapes, so keys of A keep their order but take the value from B
when B also declares them, and keys only in B follow. -/
def mergeShape (A B : List (String × ZField)) : List (String × ZField) :=
  (A.map (fun p =>
    match lookupEntry B p.1 with
    | some f => (p.1, f)
    | none => p))
  ++ B.filter (fun q => !(A.any (fun p => p.1 == q.1)))

/-- Parsing one shape slot against the (possibly absent) value of that key in
the argument object.  none models the TypeError raised when the slot holds
undefined (a required key that is not a declared property); z.unknown and
z.optional accept absence, the base validators reject it. -/
def parseField : ZField → Option JsonValue → Option Bool
  | ZField.zstring, some (JsonValue.str _) => some true
  | ZField.zstring, _ => some false
  | ZField.znumber, some (JsonValue.num _) => some true
  | ZField.znumber, _ => some false
  | ZField.zboolean, some (JsonValue.boolean _) => some true
  | ZField.zboolean, _ => some false
  | ZField.zarray, some (JsonValue.arr _) => some true
  | ZField.zarray, _ => some false
  | ZField.zunknown, _ => some true
  | ZField.zoptional _, none => some true
  | ZField.zoptional f, some v => parseField f (some v)
  | ZField.zinvalid, _ => none

/-- Zod object parsing with the default unknown-key policy: every declared
slot is checked, keys of the argument object that the shape does not declare
are stripped and never rejected.  Result none models a thrown TypeError. -/
def parseShape (shape : List (String × ZField)) (args : List (String × JsonValue)) :
    Option Bool :=
  shape.foldr
    (fun p acc =>
      match parseField p.2 (lookupEntry args p.1), acc with
      | none, _ => none
      | _, none => none
      | some b, some c => some (b && c))
    (some true)

/-- Embedding of mcpSchemaToZod: for an object schema with properties it
builds the per-property base validators, wraps them all in optional via
schema.partial(), rebuilds the required keys unwrapped, and returns
requiredSchema.merge(optionalSchema); otherwise it returns
z.record(z.string(), z.unknown()), which accepts every argument object.
The returned value is the validator itself. -/
def mcpSchemaToZod (s : MCPSchema) : List (String × JsonValue) → Option Bool :=
  match s.type, s.properties with
  | some "object", some props =>
    let zodProperties : List (String × ZField) := props.map (fun p => (p.1, baseField p.2))
    let required : List String := s.required.getD []
    let optionalShape : List (String × ZField) :=
      zodProperties.map (fun p => (p.1, ZField.zoptional p.2))
    let requiredShape : List (String × ZField) :=
      required.map (fun k => (k, (lookupEntry zodProperties k).getD ZField.zinvalid))
    fun args => parseShape (mergeShape requiredShape optionalShape) args
  | _, _ => fun _ => some true

/-- The schema of the worked example in the specification:
type object, properties a of type string, required a. -/
def exampleSchema : MCPSchema :=
  { type := some "object"
    properties := some [("a", some "string")]
    required := some ["a"] }

/-- The transport discriminator values of MCPServerConfig. -/
inductive Transport where
  | stdio
  | sse
deriving DecidableEq

/-- Embedding of the MCPServerConfig interface: every field is optional, the
two transport variants share one record, exactly as in types/mcp.ts. -/
structure MCPServerConfig where
  command : Option String := none
  args : Option (List String) := none
  env : Option (List (String × String)) := none
  url : Option String := none
  headers : Option (List (String × String)) := none
  transport : Option Transport := none
deriving DecidableEq

/-- The four server status values. -/
inductive Status where
  | disconnected
  | connecting
  | connected
  | error
deriving DecidableEq

/-- Embedding of the MCPTool interface. -/
structure MCPTool where
  name : String
  description : String
  inputSchema : JsonValue

/-- Embedding of the MCPServer interface.  The optional tools field is
modelled as a list defaulting to empty; lastChecked is never persisted or
read by the subsystem and is elided. -/
structure MCPServer where
  id : String
  name : String
  config : MCPServerConfig
  enabled : Bool
  status : Status
  tools : List MCPTool := []

/-- A row of the mcp_servers table.  The config column holds the JSON
serialization of the config; since serialization is injective and inverted by
JSON.parse on these values, the row is modelled as holding the config itself.
Timestamps are elided (no property reads them). -/
structure ServerRow where
  id : String
  name : String
  config : MCPServerConfig
  enabled : Bool
  status : Status
deriving DecidableEq

/-- A row of the mcp_tools table; input_schema likewise holds the parsed
form of its JSON serialization. -/
structure ToolRow where
  id : String
  serverId : String
  name : String
  description : String
  inputSchema : JsonValue

/-- The relational store: both tables, rows in insertion order (rowid
order, which is the order an unordered SELECT scans). -/
structure DB where
  servers : List ServerRow
  tools : List ToolRow

/-- The freshly created store. -/
def emptyDB : DB := { servers := [], tools := [] }

/-- The synthetic primary key of a tool row, serverId + underscore + name,
as built at the insertTool call site in saveTools. -/
def toolRowId (serverId name : String) : String :=
  serverId ++ "_" ++ name

/-- The tool row inserted for one MCPTool of a given server. -/
def toolRowOf (serverId : String) (t : MCPTool) : ToolRow :=
  { id := toolRowId serverId t.name
    serverId := serverId
    name := t.name
    description := t.description
    inputSchema := t.inputSchema }

/-- INSERT OR REPLACE INTO mcp_tools: any row with the same primary key is
deleted, the new row is appended with a fresh rowid. -/
def insertToolRow (r : ToolRow) (rows : List ToolRow) : List ToolRow :=
  rows.filter (fun q => q.id != r.id) ++ [r]

/-- INSERT OR REPLACE INTO mcp_servers, keyed by id. -/
def insertServerRow (r : ServerRow) (rows : List ServerRow) : List ServerRow :=
  rows.filter (fun q => q.id != r.id) ++ [r]

/-- DELETE FROM mcp_tools WHERE server_id = ?. -/
def deleteToolsByServerRows (sid : String) (rows : List ToolRow) : List ToolRow :=
  rows.filter (fun q => q.serverId != sid)

/-- Recovering an MCPTool from a row, as the row mapper of getToolsByServer
does; row.description || two quotes is the identity on the String model
(null descriptions cannot be inserted by saveTools, whose tools carry a
String description). -/
def rowToTool (r : ToolRow) : MCPTool :=
  { name := r.name, description := r.description, inputSchema := r.inputSchema }

/-- MCPDatabase.saveServer: one INSERT OR REPLACE of the server row; the
enabled flag is stored as 1/0 and read back through Boolean, the identity on
Bool, and config through stringify/parse, the identity on the model. -/
def MCPDatabase.saveServer (server : MCPServer) (db : DB) : DB :=
  { db with
    servers := insertServerRow
      { id := server.id
        name := server.name
        config := server.config
        enabled := server.enabled
        status := server.status } db.servers }

/-- MCPDatabase.getServer: SELECT by primary key, mapped back to an MCPServer
with tools set to the empty list (the source comment says tools will be
loaded separately). -/
def MCPDatabase.getServer (id : String) (db : DB) : Option MCPServer :=
  (db.servers.find? (fun r => r.id == id)).map (fun r =>
    { id := r.id
      name := r.name
      config := r.config
      enabled := r.enabled
      status := r.status
      tools := [] })

/-- MCPDatabase.updateServerStatus: UPDATE mcp_servers SET status WHERE id. -/
def MCPDatabase.updateServerStatus (id : String) (status : Status) (db : DB) : DB :=
  { db with
    servers := db.servers.map (fun r => if r.id == id then { r with status := status } else r) }

/-- MCPDatabase.deleteServer: the source first deletes the tools of the
server, then the server row. -/
def MCPDatabase.deleteServer (id : String) (db : DB) : DB :=
  { servers := db.servers.filter (fun r => r.id != id)
    tools := deleteToolsByServerRows id db.tools }

/-- The first half of MCPDatabase.saveTools: the statement
deleteToolsByServer.run(serverId), executed and committed as its own implicit
transaction before the insert transaction starts. -/
def saveToolsDeletePhase (serverId : String) (db : DB) : DB :=
  { db with tools := deleteToolsByServerRows serverId db.tools }

/-- The second half of MCPDatabase.saveTools: the db.transaction that runs
one insertTool per element of the list, atomically. -/
def saveToolsInsertPhase (serverId : String) (tools : List MCPTool) (db : DB) : DB :=
  { db with
    tools := tools.foldl (fun acc t => insertToolRow (toolRowOf serverId t) acc) db.tools }

/-- MCPDatabase.saveTools: the delete statement followed by the insert
transaction.  The two phases are separate SQLite transactions in the
source. -/
def MCPDatabase.saveTools (serverId : String) (tools : List MCPTool) (db : DB) : DB :=
  saveToolsInsertPhase serverId tools (saveToolsDeletePhase serverId db)

/-- MCPDatabase.getToolsByServer: SELECT * FROM mcp_tools WHERE server_id,
mapped back to MCPTool values. -/
def MCPDatabase.getToolsByServer (serverId : String) (db : DB) : List MCPTool :=
  (db.tools.filter (fun q => q.serverId == serverId)).map rowToTool

/-- MCPDatabase.getServerWithTools: getServer and then fill in the tools
field from getToolsByServer. -/
def MCPDatabase.getServerWithTools (id : String) (db : DB) : Option MCPServer :=
  (MCPDatabase.getServer id db).map (fun s =>
    { s with tools := MCPDatabase.getToolsByServer id db })

/-- Characterization used to state what saveTools retains: scanning the
input left to right, a tool evicts any earlier tool of the same name, so only
the last occurrence of each name survives, in order of last occurrence.
Defined from the wording of the claim, to be compared with the store. -/
def keepLastByName (tools : List MCPTool) : List MCPTool :=
  tools.foldl (fun acc t => acc.filter (fun u => u.name != t.name) ++ [t]) []

/-- A live connection as stored in the manager map: the protocol client
handle is opaque and carries no observable state; the optional owned child
process handle is present for stdio connections and null for sse ones. -/
structure Connection where
  process : Option Unit
deriving DecidableEq

/-- The connection manager state: the Map from server id to connection, in
insertion order. -/
structure ConnMgr where
  connections : List (String × Connection)
deriving DecidableEq

/-- The manager with no connections. -/
def emptyMgr : ConnMgr := { connections := [] }

/-- Map.prototype.set: replace the value in place when the key exists,
append otherwise. -/
def MCPConnectionManager.setConnection (mgr : ConnMgr) (serverId : String)
    (c : Connection) : ConnMgr :=
  if mgr.connections.any (fun p => p.1 == serverId) then
    { connections := mgr.connections.map (fun p => if p.1 == serverId then (serverId, c) else p) }
  else
    { connections := mgr.connections ++ [(serverId, c)] }

/-- Map.prototype.get. -/
def MCPConnectionManager.getConnection (mgr : ConnMgr) (serverId : String) :
    Option Connection :=
  (mgr.connections.find? (fun p => p.1 == serverId)).map (fun p => p.2)

/-- Map.prototype.has. -/
def MCPConnectionManager.hasConnection (mgr : ConnMgr) (serverId : String) : Bool :=
  mgr.connections.any (fun p => p.1 == serverId)

/-- client.close(), which may fail; the Boolean environment flag says whether
this particular call raises. -/
def clientClose (closeFails : Bool) : Except String Unit :=
  if closeFails then Except.error "close failed" else Except.ok ()

/-- process.kill(), which may fail. -/
def processKill (killFails : Bool) : Except String Unit :=
  if killFails then Except.error "kill failed" else Except.ok ()

/-- The body of the try block of deleteConnection: close the client, then
kill the owned process when there is one. -/
def cleanupConnection (c : Connection) (closeFails killFails : Bool) :
    Except String Unit := do
  clientClose closeFails
  match c.process with
  | some _ => processKill killFails
  | none => pure ()

/-- The state deleteConnection leaves behind: unchanged when the id is
absent, the entry removed when present (the Map delete runs after the
try/catch, so it runs whether or not cleanup failed). -/
def deleteConnectionRun (mgr : ConnMgr) (serverId : String) : ConnMgr :=
  match mgr.connections.find? (fun p => p.1 == serverId) with
  | none => mgr
  | some _ => { connections := mgr.connections.filter (fun p => p.1 != serverId) }

/-- MCPConnectionManager.deleteConnection with its exception behaviour made
explicit: a missing entry is a no-op; with an entry, cleanup errors are
caught (console.warn) and the entry is removed regardless, so both branches
of the catch return ok. -/
def MCPConnectionManager.deleteConnection (mgr : ConnMgr) (serverId : String)
    (closeFails killFails : Bool) : Except String ConnMgr :=
  match mgr.connections.find? (fun p => p.1 == serverId) with
  | none => Except.ok mgr
  | some conn =>
    match cleanupConnection conn.2 closeFails killFails with
    | Except.ok _ => Except.ok { connections := mgr.connections.filter (fun p => p.1 != serverId) }
    | Except.error _ => Except.ok { connections := mgr.connections.filter (fun p => p.1 != serverId) }

/-- Truthiness of an optional string field, as the source conditionals test
it: present and nonempty. -/
def truthy : Option String → Bool
  | none => false
  | some s => s != ""

/-- The connect budget of both transports, in milliseconds:
setTimeout(..., 10000). -/
def CONNECT_TIMEOUT_MS : Nat := 10000

/-- How the client.connect promise behaves in the environment: it settles at
some time with success or a rejection message, or it never settles (a stdio
command that never completes the handshake). -/
inductive ConnectBehavior where
  | settles (t : Nat) (outcome : Except String Unit)
  | never

/-- Proposition that the 10-second timer fires strictly before the connect
attempt completes. -/
def timerFirst (b : ConnectBehavior) : Prop :=
  b = ConnectBehavior.never ∨
    ∃ t outcome, b = ConnectBehavior.settles t outcome ∧ CONNECT_TIMEOUT_MS ≤ t

/-- The settlement of a raced pair of promises: a value or a rejection
message, with the time at which it settles. -/
inductive RaceResult where
  | ok (atMs : Nat)
  | err (msg : String) (atMs : Nat)
deriving DecidableEq

/-- Promise.race of the connect promise against the timeout promise: the
connect settlement wins when it comes strictly before the timer, otherwise
the race rejects with the timeout message at 10000 ms. -/
def raceConnectTimeout (timeoutMsg : String) (b : ConnectBehavior) : RaceResult :=
  match b with
  | ConnectBehavior.never => RaceResult.err timeoutMsg CONNECT_TIMEOUT_MS
  | ConnectBehavior.settles t (Except.ok _) =>
    if t < CONNECT_TIMEOUT_MS then RaceResult.ok t
    else RaceResult.err timeoutMsg CONNECT_TIMEOUT_MS
  | ConnectBehavior.settles t (Except.error m) =>
    if t < CONNECT_TIMEOUT_MS then RaceResult.err m t
    else RaceResult.err timeoutMsg CONNECT_TIMEOUT_MS

/-- Embedding of createMCPConnection from the on-demand execute route: the
sse branch requires a url and races with the SSE timeout message, the stdio
branch requires a command and races with the STDIO timeout message, anything
else throws Invalid server configuration (at once, time 0). -/
def createMCPConnection (server : MCPServer) (b : ConnectBehavior) : RaceResult :=
  if server.config.transport = some Transport.sse then
    if truthy server.config.url then raceConnectTimeout "SSE connection timeout" b
    else RaceResult.err "URL is required for SSE transport" 0
  else if server.config.transport = some Transport.stdio ∧ truthy server.config.command then
    raceConnectTimeout "STDIO connection timeout" b
  else RaceResult.err "Invalid server configuration" 0

/-- The process-wide mutable state the route handlers touch: the relational
store and the connection manager singleton. -/
structure AppState where
  db : DB
  mgr : ConnMgr

/-- Responses of the test-connection route, reduced to the fields the
properties observe; connectFailed carries the error message of the catch
branch and the time at which the connect race settled. -/
inductive TestConnResponse where
  | ok (tools : List MCPTool)
  | badRequest (msg : String)
  | connectFailed (msg : String) (atMs : Nat)

/-- Embedding of the test-connection POST handler (save-server/route.ts).
The sse branch checks the url, cleans up any existing connection for the id,
races connect against the 10-second timer, and on success lists tools,
stores the connection (no process), saves the server with status connected
and replaces its tools; the stdio branch does the same with a command check
first and an owned process in the stored connection.  listTools is modelled
as returning the listedTools of the environment; closeFails and killFails
drive the cleanup of the pre-existing connection.  A rejected race is caught
and reported as a 400 connectFailed response. -/
def testConnectionRoute (server : MCPServer) (b : ConnectBehavior)
    (listedTools : List MCPTool) (closeFails killFails : Bool) (st : AppState) :
    AppState × TestConnResponse :=
  if server.config.transport = some Transport.sse then
    if truthy server.config.url = false then
      (st, TestConnResponse.badRequest "URL is required for SSE transport")
    else
      match MCPConnectionManager.deleteConnection st.mgr server.id closeFails killFails with
      | Except.error e => (st, TestConnResponse.connectFailed ("SSE connection failed: " ++ e) 0)
      | Except.ok mgr1 =>
        match raceConnectTimeout "SSE connection timeout" b with
        | RaceResult.err m t => ({ st with mgr := mgr1 }, TestConnResponse.connectFailed m t)
        | RaceResult.ok _ =>
          let mgr2 := MCPConnectionManager.setConnection mgr1 server.id { process := none }
          let db1 := MCPDatabase.saveServer { server with status := Status.connected } st.db
          let db2 := MCPDatabase.saveTools server.id listedTools db1
          ({ db := db2, mgr := mgr2 }, TestConnResponse.ok listedTools)
  else if server.config.transport = some Transport.stdio ∧ truthy server.config.command then
    match MCPConnectionManager.deleteConnection st.mgr server.id closeFails killFails with
    | Except.error e => (st, TestConnResponse.connectFailed ("STDIO connection failed: " ++ e) 0)
    | Except.ok mgr1 =>
      match raceConnectTimeout "Connection timeout" b with
      | RaceResult.err m t => ({ st with mgr := mgr1 }, TestConnResponse.connectFailed m t)
      | RaceResult.ok _ =>
        let mgr2 := MCPConnectionManager.setConnection mgr1 server.id { process := some () }
        let db1 := MCPDatabase.saveServer { server with status := Status.connected } st.db
        let db2 := MCPDatabase.saveTools server.id listedTools db1
        ({ db := db2, mgr := mgr2 }, TestConnResponse.ok listedTools)
  else
    (st, TestConnResponse.badRequest "Invalid server configuration")

/-- Whether pat occurs as a contiguous run inside s, scanning positions left
to right. -/
def charListHasInfix (pat : List Char) : List Char → Bool
  | [] => pat.isEmpty
  | b :: rest => pat.isPrefixOf (b :: rest) || charListHasInfix pat rest

/-- One character-level substring test, String.prototype.includes of the
source. -/
def containsSubstr (s pat : String) : Bool :=
  charListHasInfix pat.toList s.toList

/-- The broken-connection heuristic of the pooled execute route: the thrown
message includes connection, closed or disconnected. -/
def isConnectionErrorMsg (msg : String) : Bool :=
  containsSubstr msg "connection" || containsSubstr msg "closed" ||
    containsSubstr msg "disconnected"

/-- How the awaited connection.client.callTool settles in the environment:
a result content value, or a rejection with a message (the route cannot tell
a remote tool failure from a transport failure except by that message). -/
inductive CallToolOutcome where
  | ok (content : JsonValue)
  | toolError (msg : String)

/-- The JSON body and status code of an execute response. -/
structure ExecResponse where
  status : Nat
  success : Bool
  result : Option JsonValue
  error : Option String

/-- Embedding of the pooled execute POST handler: requires toolName and
serverId, requires an active connection in the manager, then calls the tool;
a rejection whose message matches the broken-connection heuristic removes
the connection from the manager, and every rejection is answered with a 400
Tool execution failed response carrying the thrown message.  The handler
performs no database operation, so the store passes through unchanged. -/
def executeRoute (toolName serverId : String) (outcome : CallToolOutcome)
    (closeFails killFails : Bool) (st : AppState) : AppState × ExecResponse :=
  if toolName = "" ∨ serverId = "" then
    (st, { status := 400, success := false, result := none
           error := some "Tool name and server ID are required" })
  else
    match MCPConnectionManager.getConnection st.mgr serverId with
    | none =>
      (st, { status := 400, success := false, result := none
             error := some "No active connection found for server. Please test connection first to establish a connection." })
    | some _ =>
      match outcome with
      | CallToolOutcome.ok content =>
        (st, { status := 200, success := true, result := some content, error := none })
      | CallToolOutcome.toolError msg =>
        if isConnectionErrorMsg msg then
          match MCPConnectionManager.deleteConnection st.mgr serverId closeFails killFails with
          | Except.error _ =>
            (st, { status := 500, success := false, result := none
                   error := some "Failed to execute MCP tool" })
          | Except.ok mgr1 =>
            ({ st with mgr := mgr1 },
             { status := 400, success := false, result := none
               error := some ("Tool execution failed: " ++ msg) })
        else
          (st, { status := 400, success := false, result := none
                 error := some ("Tool execution failed: " ++ msg) })

/-- Embedding of the delete-server POST handler: requires a serverId (the
empty string is falsy), cleans up any live connection, then deletes the
server and its tools from the store. -/
def deleteServerRoute (serverId : String) (closeFails killFails : Bool)
    (st : AppState) : AppState × Nat :=
  if serverId = "" then (st, 400)
  else
    match MCPConnectionManager.deleteConnection st.mgr serverId closeFails killFails with
    | Except.error _ => (st, 500)
    | Except.ok mgr1 => ({ db := MCPDatabase.deleteServer serverId st.db, mgr := mgr1 }, 200)

/-! Helper lemmas. -/

theorem append_left_cancel_str {c a b : String} (h : c ++ a = c ++ b) : a = b := by
  have h2 := congrArg String.data h
  simp only [String.data_append] at h2
  exact String.ext (List.append_cancel_left h2)

theorem toolRowId_beq (sid a b : String) :
    (toolRowId sid a == toolRowId sid b) = (a == b) := by
  rw [Bool.eq_iff_iff]
  simp only [beq_iff_eq, toolRowId]
  constructor
  · intro h
    exact append_left_cancel_str h
  · intro h; rw [h]

theorem insertFold_filter (sid : String) (tools : List MCPTool) (rows : List ToolRow) :
    (tools.foldl (fun acc t => insertToolRow (toolRowOf sid t) acc) rows).filter
        (fun q => q.serverId == sid)
      = tools.foldl (fun acc t => insertToolRow (toolRowOf sid t) acc)
          (rows.filter (fun q => q.serverId == sid)) := by
  induction tools generalizing rows with
  | nil => rfl
  | cons t ts ih =>
    simp only [List.foldl_cons]
    rw [ih]
    congr 1
    simp only [insertToolRow, List.filter_append, List.filter_filter]
    have hrow : ((toolRowOf sid t).serverId == sid) = true := by simp [toolRowOf]
    rw [List.filter_congr (by intro x _; rw [Bool.and_comm])]
    simp [hrow]

theorem insertFold_of_map (sid : String) (tools : List MCPTool) (acc : List MCPTool) :
    tools.foldl (fun a t => insertToolRow (toolRowOf sid t) a) (acc.map (toolRowOf sid))
      = (tools.foldl (fun a t => a.filter (fun u => u.name != t.name) ++ [t]) acc).map
          (toolRowOf sid) := by
  induction tools generalizing acc with
  | nil => rfl
  | cons t ts ih =>
    simp only [List.foldl_cons]
    rw [show insertToolRow (toolRowOf sid t) (acc.map (toolRowOf sid))
          = ((acc.filter (fun u => u.name != t.name) ++ [t]).map (toolRowOf sid)) from ?_, ih]
    simp only [insertToolRow, List.map_append, List.map_cons, List.map_nil]
    congr 1
    rw [List.filter_map]
    have hpt : List.filter ((fun q => q.id != (toolRowOf sid t).id) ∘ toolRowOf sid) acc
        = List.filter (fun u => u.name != t.name) acc := by
      apply List.filter_congr
      intro u _
      show ((toolRowOf sid u).id != (toolRowOf sid t).id) = (u.name != t.name)
      simp only [toolRowOf, bne, toolRowId_beq]
    rw [hpt]

theorem getTools_saveTools_rows (sid : String) (tools : List MCPTool) (rows : List ToolRow) :
    ((tools.foldl (fun acc t => insertToolRow (toolRowOf sid t) acc)
        (deleteToolsByServerRows sid rows)).filter (fun q => q.serverId == sid)).map rowToTool
      = keepLastByName tools := by
  rw [insertFold_filter]
  have hnil : (deleteToolsByServerRows sid rows).filter (fun q => q.serverId == sid) = [] := by
    simp only [deleteToolsByServerRows, List.filter_filter]
    rw [List.filter_eq_nil_iff]
    intro a _
    simp [bne]
  rw [hnil]
  rw [show ([] : List ToolRow) = ([] : List MCPTool).map (toolRowOf sid) from rfl]
  rw [insertFold_of_map]
  rw [List.map_map]
  have hcomp : rowToTool ∘ toolRowOf sid = id := by
    funext t
    rfl
  rw [hcomp, List.map_id, keepLastByName]

theorem keepLastAux_nodup (tools : List MCPTool) (acc : List MCPTool)
    (hacc : (acc.map (fun t => t.name)).Nodup) :
    ((tools.foldl (fun a t => a.filter (fun u => u.name != t.name) ++ [t]) acc).map
      (fun t => t.name)).Nodup := by
  induction tools generalizing acc with
  | nil => exact hacc
  | cons t ts ih =>
    simp only [List.foldl_cons]
    apply ih
    simp only [List.map_append, List.map_cons, List.map_nil, List.nodup_append]
    refine ⟨?_, List.nodup_singleton _, ?_⟩
    · exact List.Nodup.sublist (List.Sublist.map _ (List.filter_sublist acc)) hacc
    · intro x hx
      simp only [List.mem_map, List.mem_filter] at hx
      obtain ⟨u, ⟨_, hu2⟩, rfl⟩ := hx
      simp only [List.mem_singleton]
      intro hcon
      rw [hcon] at hu2
      simp [bne] at hu2

theorem keepLastAux_of_nodup (tools : List MCPTool) (acc : List MCPTool)
    (h : ((acc ++ tools).map (fun t => t.name)).Nodup) :
    tools.foldl (fun a t => a.filter (fun u => u.name != t.name) ++ [t]) acc = acc ++ tools := by
  induction tools generalizing acc with
  | nil => simp
  | cons t ts ih =>
    simp only [List.foldl_cons]
    have hname : ∀ u ∈ acc, u.name ≠ t.name := by
      intro u hu hc
      rw [List.map_append, List.nodup_append] at h
      exact h.2.2 (List.mem_map_of_mem _ hu) (by simp [hc])
    have hflt : acc.filter (fun u => u.name != t.name) = acc := by
      rw [List.filter_eq_self]
      intro u hu
      simp [bne, hname u hu]
    rw [hflt]
    have h2 : (((acc ++ [t]) ++ ts).map (fun u => u.name)).Nodup := by
      simpa using h
    rw [ih (acc ++ [t]) h2]
    simp

theorem mem_insertFold (sid : String) (tools : List MCPTool) (acc : List ToolRow) (r : ToolRow)
    (hr : r ∈ tools.foldl (fun a t => insertToolRow (toolRowOf sid t) a) acc) :
    r ∈ acc ∨ r.serverId = sid := by
  induction tools generalizing acc with
  | nil => exact Or.inl hr
  | cons t ts ih =>
    simp only [List.foldl_cons] at hr
    rcases ih _ hr with h | h
    · simp only [insertToolRow, List.mem_append, List.mem_filter, List.mem_singleton] at h
      rcases h with ⟨h1, _⟩ | rfl
      · exact Or.inl h1
      · exact Or.inr rfl
    · exact Or.inr h

theorem insertFold_filter_other (sid sid' : String) (hne : sid' ≠ sid)
    (tools : List MCPTool) (acc : List ToolRow)
    (hid : ∀ r ∈ acc, r.serverId = sid' → ∀ t ∈ tools, r.id ≠ toolRowId sid t.name) :
    (tools.foldl (fun a t => insertToolRow (toolRowOf sid t) a) acc).filter
        (fun q => q.serverId == sid')
      = acc.filter (fun q => q.serverId == sid') := by
  induction tools generalizing acc with
  | nil => rfl
  | cons t ts ih =>
    simp only [List.foldl_cons]
    have hid2 : ∀ r ∈ insertToolRow (toolRowOf sid t) acc, r.serverId = sid' →
        ∀ t2 ∈ ts, r.id ≠ toolRowId sid t2.name := by
      intro r hr hsid t2 ht2
      simp only [insertToolRow, List.mem_append, List.mem_filter, List.mem_singleton] at hr
      rcases hr with ⟨h1, _⟩ | rfl
      · exact hid r h1 hsid t2 (List.mem_cons_of_mem _ ht2)
      · exact absurd hsid (Ne.symm hne)
    rw [ih _ hid2]
    simp only [insertToolRow, List.filter_append, List.filter_filter]
    have h1 : ((toolRowOf sid t).serverId == sid') = false :=
      beq_eq_false_iff_ne.mpr (Ne.symm hne)
    have h2 : List.filter (fun q => q.serverId == sid') [toolRowOf sid t] = [] := by
      simp [h1]
    rw [h2, List.append_nil]
    apply List.filter_congr
    intro q hq
    by_cases hs : q.serverId = sid'
    · have hqi : q.id ≠ toolRowId sid t.name := hid q hq hs t (List.mem_cons_self _ _)
      simp [hs, bne, toolRowOf, hqi]
    · simp [beq_eq_false_iff_ne.mpr hs]

theorem deleteConnection_ok (mgr : ConnMgr) (sid : String) (cf kf : Bool) :
    MCPConnectionManager.deleteConnection mgr sid cf kf
      = Except.ok (deleteConnectionRun mgr sid) := by
  unfold MCPConnectionManager.deleteConnection deleteConnectionRun
  cases h : mgr.connections.find? (fun p => p.1 == sid) with
  | none => rfl
  | some c =>
    cases hc : cleanupConnection c.2 cf kf with
    | ok u => simp [hc]
    | error e => simp [hc]

theorem hasConnection_deleteRun (mgr : ConnMgr) (sid : String) :
    MCPConnectionManager.hasConnection (deleteConnectionRun mgr sid) sid = false := by
  unfold deleteConnectionRun
  cases h : mgr.connections.find? (fun p => p.1 == sid) with
  | none =>
    simp only [MCPConnectionManager.hasConnection]
    rw [Bool.eq_false_iff]
    intro hc
    obtain ⟨x, hx1, hx2⟩ := List.any_eq_true.mp hc
    exact (List.find?_eq_none.mp h) x hx1 hx2
  | some c =>
    simp only [MCPConnectionManager.hasConnection]
    rw [Bool.eq_false_iff]
    intro hc
    obtain ⟨x, hx1, hx2⟩ := List.any_eq_true.mp hc
    rw [List.mem_filter] at hx1
    exact (bne_iff_ne.mp hx1.2) (beq_iff_eq.mp hx2)

theorem deleteRun_of_absent (mgr : ConnMgr) (sid : String)
    (h : MCPConnectionManager.hasConnection mgr sid = false) :
    deleteConnectionRun mgr sid = mgr := by
  unfold deleteConnectionRun
  cases hf : mgr.connections.find? (fun p => p.1 == sid) with
  | none => rfl
  | some c =>
    exfalso
    rw [MCPConnectionManager.hasConnection, Bool.eq_false_iff] at h
    have hp := List.find?_some hf
    exact h (List.any_eq_true.mpr ⟨c, List.mem_of_find?_eq_some hf, hp⟩)

theorem filter_other_delete (S sid' : String) (hne : sid' ≠ S) (rows : List ToolRow) :
    (deleteToolsByServerRows S rows).filter (fun q => q.serverId == sid')
      = rows.filter (fun q => q.serverId == sid') := by
  simp only [deleteToolsByServerRows, List.filter_filter]
  apply List.filter_congr
  intro q _
  by_cases hs : q.serverId = sid'
  · simp [hs, bne, hne]
  · simp [beq_eq_false_iff_ne.mpr hs]

theorem lookupEntry_map {α β : Type} (l : List (String × α)) (g : α → β) (k : String) :
    lookupEntry (l.map (fun p => (p.1, g p.2))) k = (lookupEntry l k).map g := by
  induction l with
  | nil => rfl
  | cons p ps ih =>
    simp only [List.map_cons, lookupEntry, List.find?_cons]
    cases h : (p.1 == k) with
    | true => simp
    | false => simpa [lookupEntry] using ih

theorem parseShape_nil_args (shape : List (String × ZField))
    (h : ∀ p ∈ shape, ∃ g, p.2 = ZField.zoptional g) :
    parseShape shape [] = some true := by
  induction shape with
  | nil => rfl
  | cons p ps ih =>
    obtain ⟨g, hg⟩ := h p (List.mem_cons_self _ _)
    have hps := ih (fun q hq => h q (List.mem_cons_of_mem _ hq))
    simp only [parseShape, List.foldr_cons] at hps ⊢
    rw [hps, hg]
    rfl

theorem mcpSchemaToZod_object (props : List (String × Option String))
    (rq : Option (List String)) :
    mcpSchemaToZod { type := some "object", properties := some props, required := rq }
      = fun args => parseShape
          (mergeShape
            ((rq.getD []).map (fun k =>
              (k, (lookupEntry (props.map (fun p => (p.1, baseField p.2))) k).getD
                ZField.zinvalid)))
            ((props.map (fun p => (p.1, baseField p.2))).map
              (fun p => (p.1, ZField.zoptional p.2))))
          args := rfl

theorem mergeShape_all_optional (props : List (String × Option String)) (required : List String)
    (hreq : ∀ k ∈ required, (lookupEntry props k).isSome = true) :
    ∀ p ∈ mergeShape
        (required.map (fun k =>
          (k, (lookupEntry (props.map (fun q => (q.1, baseField q.2))) k).getD ZField.zinvalid)))
        ((props.map (fun q => (q.1, baseField q.2))).map (fun q => (q.1, ZField.zoptional q.2))),
      ∃ g, p.2 = ZField.zoptional g := by
  intro p hp
  simp only [mergeShape, List.mem_append] at hp
  rcases hp with hp | hp
  · simp only [List.mem_map] at hp
    obtain ⟨q, hq, rfl⟩ := hp
    obtain ⟨k, hk, rfl⟩ := hq
    obtain ⟨v, hv⟩ := Option.isSome_iff_exists.mp (hreq k hk)
    have hlk : lookupEntry ((props.map (fun q => (q.1, baseField q.2))).map
        (fun q => (q.1, ZField.zoptional q.2))) k = some (ZField.zoptional (baseField v)) := by
      rw [lookupEntry_map, lookupEntry_map, hv]
      rfl
    simp only [hlk]
    exact ⟨baseField v, rfl⟩
  · simp only [List.mem_filter, List.mem_map] at hp
    obtain ⟨⟨q, hq, rfl⟩, _⟩ := hp
    exact ⟨q.2, rfl⟩

theorem race_timerFirst (m : String) (b : ConnectBehavior) (hT : timerFirst b) :
    raceConnectTimeout m b = RaceResult.err m CONNECT_TIMEOUT_MS := by
  rcases hT with rfl | ⟨t, o, rfl, ht⟩
  · rfl
  · cases o with
    | ok u => simp only [raceConnectTimeout, if_neg (Nat.not_lt.mpr ht)]
    | error m2 => simp only [raceConnectTimeout, if_neg (Nat.not_lt.mpr ht)]

theorem find?_filter_of_imp {α : Type} (l : List α) (p q : α → Bool)
    (h : ∀ x, p x = true → q x = true) :
    (l.filter q).find? p = l.find? p := by
  induction l with
  | nil => rfl
  | cons a as ih =>
    rw [List.filter_cons]
    by_cases hq : q a = true
    · rw [if_pos hq, List.find?_cons, List.find?_cons]
      cases hp : p a
      · exact ih
      · rfl
    · have hp : p a = false := by
        cases hpa : p a
        · rfl
        · exact absurd (h a hpa) hq
      rw [if_neg hq, List.find?_cons, hp, ih]

theorem executeRoute_toolError (toolName serverId msg : String)
    (cf kf : Bool) (st : AppState) (h1 : ¬(toolName = "" ∨ serverId = ""))
    (h3 : (MCPConnectionManager.getConnection st.mgr serverId).isSome = true) :
    executeRoute toolName serverId (CallToolOutcome.toolError msg) cf kf st
      = ((if isConnectionErrorMsg msg
            then { st with mgr := deleteConnectionRun st.mgr serverId } else st),
         { status := 400, success := false, result := none,
           error := some ("Tool execution failed: " ++ msg) }) := by
  obtain ⟨c, hc⟩ := Option.isSome_iff_exists.mp h3
  simp only [MCPConnectionManager.getConnection] at hc
  simp only [executeRoute, if_neg h1, MCPConnectionManager.getConnection, hc]
  by_cases hmsg : isConnectionErrorMsg msg
  · simp only [hmsg, reduceIte, deleteConnection_ok, if_pos]
  · simp only [hmsg, Bool.false_eq_true, reduceIte, if_neg]

/-! Concrete fixtures used by counterexamples and witnesses. -/

/-- A tool with a name, a description and a null input schema. -/
def exTool (n d : String) : MCPTool :=
  { name := n, description := d, inputSchema := JsonValue.null }

/-- A store holding one tool named c for a server whose id is a underscore b:
its synthetic row id is the string a, underscore, b, underscore, c. -/
def dbColl : DB := MCPDatabase.saveTools "a_b" [exTool "c" "dc"] emptyDB

/-- A manager holding one stdio connection for server s1. -/
def mgrEx : ConnMgr := { connections := [("s1", { process := some () })] }

/-- Application state with an empty store and the s1 connection. -/
def stEx : AppState := { db := emptyDB, mgr := mgrEx }

/-- A server row with an all-default config. -/
def serverRowEx (i n : String) (stt : Status) : ServerRow :=
  { id := i, name := n, config := {}, enabled := true, status := stt }

/-- Application state for the transport-failure scenario: server s1 is
persisted as connected and has a live pooled connection. -/
def stEx7 : AppState :=
  { db := { servers := [serverRowEx "s1" "one" Status.connected], tools := [] }
    mgr := mgrEx }

/-- Application state with two persisted servers, one stored tool each, and a
live connection for s1. -/
def stEx8 : AppState :=
  { db := { servers := [serverRowEx "s1" "one" Status.connected,
                        serverRowEx "s2" "two" Status.connected]
            tools := [toolRowOf "s1" (exTool "t1" "d"), toolRowOf "s2" (exTool "t2" "d")] }
    mgr := mgrEx }

/-- An enabled sse server with id s1 pointing at an unreachable url. -/
def serverEx4 : MCPServer :=
  { id := "s1", name := "srv"
    config := { url := some "http://bad.invalid", transport := some Transport.sse }
    enabled := true, status := Status.disconnected }

/-! Claim theorems. -/

/-- Claim C1.  The claim asserts that the produced validator rejects an
argument object missing a declared required field; the code does the
opposite.  Because mcpSchemaToZod returns requiredSchema.merge(optionalSchema)
and merge lets the right-hand shape win on shared keys, every declared
property ends up optional: for the worked schema the empty argument object
validates successfully (first conjunct, contradicting the claim), an object
with the required field plus an extra field also validates (second conjunct,
the part of the claim the code does satisfy), and in general, whenever every
required key is a declared property, the empty argument object passes every
produced validator, so required fields are never enforced (third
conjunct). -/
theorem C1_merge_makes_required_optional :
    mcpSchemaToZod exampleSchema [] = some true
    ∧ mcpSchemaToZod exampleSchema
        [("a", JsonValue.str "x"), ("b", JsonValue.str "extra")] = some true
    ∧ ∀ (s : MCPSchema) (props : List (String × Option String)),
        s.type = some "object" → s.properties = some props →
        (∀ k ∈ s.required.getD [], (lookupEntry props k).isSome = true) →
        mcpSchemaToZod s [] = some true := by
  refine ⟨rfl, rfl, ?_⟩
  intro s props h1 h2 h3
  obtain ⟨ty, pr, rq⟩ := s
  simp only at h1 h2 h3
  subst h1
  subst h2
  rw [mcpSchemaToZod_object]
  exact parseShape_nil_args _ (mergeShape_all_optional props (rq.getD []) h3)

/-- Witness for C1: the general conjunct applied to the worked example
schema, with its hypotheses discharged concretely. -/
theorem C1_merge_makes_required_optional_witness :
    mcpSchemaToZod exampleSchema [] = some true :=
  C1_merge_makes_required_optional.2.2 exampleSchema [("a", some "string")] rfl rfl (by decide)

/-- Counterexample to claim C2 as stated.  First: when T2 repeats a name, the
store does not return exactly T2 but only the last occurrence (tool ids are
serverId underscore name with insert-or-replace).  Second: the synthetic id
scheme can collide across servers, so a saveTools call for server a with a
tool named b_c replaces the tool named c of server a_b: another server's tool
set changes. -/
theorem C2_replace_counterexample :
    MCPDatabase.getToolsByServer "a"
        (MCPDatabase.saveTools "a" [exTool "x" "d1", exTool "x" "d2"]
          (MCPDatabase.saveTools "a" [exTool "y" "d0"] emptyDB))
      = [exTool "x" "d2"]
    ∧ [exTool "x" "d2"] ≠ [exTool "x" "d1", exTool "x" "d2"]
    ∧ MCPDatabase.getToolsByServer "a_b" dbColl = [exTool "c" "dc"]
    ∧ MCPDatabase.getToolsByServer "a_b"
        (MCPDatabase.saveTools "a" [exTool "b_c" "dd"] (MCPDatabase.saveTools "a" [] dbColl))
      = [] := by
  refine ⟨rfl, ?_, rfl, rfl⟩
  intro hcon
  exact absurd (congrArg List.length hcon) (by decide)

/-- Claim C2, amended.  After saveTools(S, T1) then saveTools(S, T2), the
query toolsByServer(S) returns exactly T2 — replacement, never a union with
T1 — provided T2 has pairwise distinct tool names; and every other server id
keeps its stored tool set unchanged provided none of its stored row ids
equals the synthetic id S underscore name for a name of T1 or T2. -/
theorem C2_replace_amended (db : DB) (S : String) (T1 T2 : List MCPTool) :
    ((T2.map (fun t => t.name)).Nodup →
      MCPDatabase.getToolsByServer S
          (MCPDatabase.saveTools S T2 (MCPDatabase.saveTools S T1 db)) = T2)
    ∧ (∀ sid', sid' ≠ S →
        (∀ r ∈ db.tools, r.serverId ≠ S →
          ∀ t, (t ∈ T1 ∨ t ∈ T2) → r.id ≠ toolRowId S t.name) →
        MCPDatabase.getToolsByServer sid'
            (MCPDatabase.saveTools S T2 (MCPDatabase.saveTools S T1 db))
          = MCPDatabase.getToolsByServer sid' db) := by
  constructor
  · intro hnd
    have h : MCPDatabase.getToolsByServer S
        (MCPDatabase.saveTools S T2 (MCPDatabase.saveTools S T1 db)) = keepLastByName T2 := by
      simp only [MCPDatabase.getToolsByServer, MCPDatabase.saveTools, saveToolsInsertPhase,
        saveToolsDeletePhase]
      exact getTools_saveTools_rows S T2 _
    rw [h]
    have h2 := keepLastAux_of_nodup T2 [] (by simpa using hnd)
    simpa [keepLastByName] using h2
  · intro sid' hne hid
    simp only [MCPDatabase.getToolsByServer, MCPDatabase.saveTools, saveToolsInsertPhase,
      saveToolsDeletePhase]
    congr 1
    set rows1 : List ToolRow :=
      T1.foldl (fun a t => insertToolRow (toolRowOf S t) a) (deleteToolsByServerRows S db.tools)
      with hrows1
    have hmem1 : ∀ r ∈ rows1, r.serverId ≠ S → r ∈ db.tools := by
      intro r hr hrs
      rcases mem_insertFold S T1 _ r hr with h | h
      · exact (List.mem_filter.mp h).1
      · exact absurd h hrs
    have hidT2 : ∀ r ∈ deleteToolsByServerRows S rows1, r.serverId = sid' →
        ∀ t ∈ T2, r.id ≠ toolRowId S t.name := by
      intro r hr hrs t ht
      have hmf := List.mem_filter.mp hr
      have hrsS : r.serverId ≠ S := bne_iff_ne.mp hmf.2
      exact hid r (hmem1 r hmf.1 hrsS) hrsS t (Or.inr ht)
    rw [insertFold_filter_other S sid' hne T2 _ hidT2]
    rw [filter_other_delete S sid' hne]
    have hidT1 : ∀ r ∈ deleteToolsByServerRows S db.tools, r.serverId = sid' →
        ∀ t ∈ T1, r.id ≠ toolRowId S t.name := by
      intro r hr hrs t ht
      have hmf := List.mem_filter.mp hr
      exact hid r hmf.1 (bne_iff_ne.mp hmf.2) t (Or.inl ht)
    rw [insertFold_filter_other S sid' hne T1 _ hidT1]
    rw [filter_other_delete S sid' hne]

/-- Witness for the amended C2 at concrete inputs, hypotheses discharged. -/
theorem C2_replace_amended_witness :
    MCPDatabase.getToolsByServer "a"
        (MCPDatabase.saveTools "a" [exTool "x" "d1"]
          (MCPDatabase.saveTools "a" [exTool "y" "d0"] emptyDB)) = [exTool "x" "d1"]
    ∧ MCPDatabase.getToolsByServer "b"
        (MCPDatabase.saveTools "a" [exTool "x" "d1"]
          (MCPDatabase.saveTools "a" [exTool "y" "d0"] emptyDB))
      = MCPDatabase.getToolsByServer "b" emptyDB := by
  have h := C2_replace_amended emptyDB "a" [exTool "y" "d0"] [exTool "x" "d1"]
  refine ⟨h.1 (by decide), h.2 "b" (by decide) ?_⟩
  intro r hr
  exact absurd hr (List.not_mem_nil r)

/-- Claim C3.  The claim asserts delete and insert happen in one atomic
transaction; in the source the delete statement runs and commits on its own
before the insert transaction starts, so saveTools factors into the two
separately committed phases (third conjunct, definitional), and the state
after the delete phase alone — an observable committed state — shows an
empty tool set for the server (second conjunct) even though the server held
tools before (first conjunct). -/
theorem C3_delete_outside_insert_transaction :
    MCPDatabase.getToolsByServer "S"
        (MCPDatabase.saveTools "S" [exTool "A" "", exTool "B" ""] emptyDB)
      = [exTool "A" "", exTool "B" ""]
    ∧ MCPDatabase.getToolsByServer "S"
        (saveToolsDeletePhase "S"
          (MCPDatabase.saveTools "S" [exTool "A" "", exTool "B" ""] emptyDB))
      = []
    ∧ ∀ (tools : List MCPTool) (db : DB),
        MCPDatabase.saveTools "S" tools db
          = saveToolsInsertPhase "S" tools (saveToolsDeletePhase "S" db) :=
  ⟨rfl, rfl, fun _ _ => rfl⟩

/-- Claim C4.  For both transports, when the 10-second timer fires before the
connect attempt settles, the test-connection route answers with the timeout
error message at exactly 10000 ms, the resulting state has no connection
entry for the server id (only the pre-connect cleanup ran), the store is
untouched, and the on-demand createMCPConnection likewise rejects with its
timeout message at 10000 ms. -/
theorem C4_connect_timeout (server : MCPServer) (b : ConnectBehavior) (listed : List MCPTool)
    (cf kf : Bool) (st : AppState) (hT : timerFirst b) :
    (server.config.transport = some Transport.sse → truthy server.config.url = true →
      (testConnectionRoute server b listed cf kf st
          = ({ db := st.db, mgr := deleteConnectionRun st.mgr server.id },
             TestConnResponse.connectFailed "SSE connection timeout" CONNECT_TIMEOUT_MS)
        ∧ MCPConnectionManager.hasConnection
            (deleteConnectionRun st.mgr server.id) server.id = false
        ∧ createMCPConnection server b
            = RaceResult.err "SSE connection timeout" CONNECT_TIMEOUT_MS))
    ∧ (server.config.transport = some Transport.stdio → truthy server.config.command = true →
      (testConnectionRoute server b listed cf kf st
          = ({ db := st.db, mgr := deleteConnectionRun st.mgr server.id },
             TestConnResponse.connectFailed "Connection timeout" CONNECT_TIMEOUT_MS)
        ∧ MCPConnectionManager.hasConnection
            (deleteConnectionRun st.mgr server.id) server.id = false
        ∧ createMCPConnection server b
            = RaceResult.err "STDIO connection timeout" CONNECT_TIMEOUT_MS)) := by
  constructor
  · intro htr hurl
    refine ⟨?_, hasConnection_deleteRun st.mgr server.id, ?_⟩
    · simp only [testConnectionRoute, htr, reduceIte, hurl, deleteConnection_ok,
        race_timerFirst _ b hT]
      simp
    · simp only [createMCPConnection, htr, reduceIte, hurl, race_timerFirst _ b hT]
  · intro htr hcmd
    refine ⟨?_, hasConnection_deleteRun st.mgr server.id, ?_⟩
    · simp only [testConnectionRoute, htr, reduceIte, hcmd, deleteConnection_ok,
        race_timerFirst _ b hT]
      simp
    · simp only [createMCPConnection, htr, reduceIte, hcmd, race_timerFirst _ b hT]
      simp

/-- Witness for C4: a never-settling sse connect attempt against the state
with a live s1 connection. -/
theorem C4_connect_timeout_witness :
    testConnectionRoute serverEx4 ConnectBehavior.never [] false false stEx
        = ({ db := stEx.db, mgr := deleteConnectionRun stEx.mgr "s1" },
           TestConnResponse.connectFailed "SSE connection timeout" CONNECT_TIMEOUT_MS)
    ∧ MCPConnectionManager.hasConnection (deleteConnectionRun stEx.mgr "s1") "s1" = false
    ∧ createMCPConnection serverEx4 ConnectBehavior.never
        = RaceResult.err "SSE connection timeout" CONNECT_TIMEOUT_MS :=
  (C4_connect_timeout serverEx4 ConnectBehavior.never [] false false stEx
    (Or.inl rfl)).1 rfl rfl

/-- Claim C5.  deleteConnection never raises (it always returns ok, with the
state captured by deleteConnectionRun), after any call the id has no
connection, and when the id had no connection the manager state is
untouched — all regardless of whether closing the client or killing the
process fails. -/
theorem C5_deleteConnection_idempotent (mgr : ConnMgr) (serverId : String)
    (closeFails killFails : Bool) :
    MCPConnectionManager.deleteConnection mgr serverId closeFails killFails
        = Except.ok (deleteConnectionRun mgr serverId)
    ∧ MCPConnectionManager.hasConnection (deleteConnectionRun mgr serverId) serverId = false
    ∧ (MCPConnectionManager.hasConnection mgr serverId = false →
        deleteConnectionRun mgr serverId = mgr) :=
  ⟨deleteConnection_ok mgr serverId closeFails killFails,
   hasConnection_deleteRun mgr serverId,
   deleteRun_of_absent mgr serverId⟩

/-- Witness for C5: deleting an absent id with failing cleanup primitives is
still ok and a no-op. -/
theorem C5_deleteConnection_idempotent_witness :
    MCPConnectionManager.deleteConnection emptyMgr "s1" true true = Except.ok emptyMgr := by
  have h := C5_deleteConnection_idempotent emptyMgr "s1" true true
  rw [h.1, h.2.2 (by decide)]

/-- Counterexample to claim C6 as stated.  A remote tool failure whose
message happens to contain the word connection is treated by the message
heuristic as a broken connection, and the pooled entry for s1 is removed: it
is not true that the entry is never removed on remote tool failure. -/
theorem C6_remote_failure_counterexample :
    isConnectionErrorMsg "connection reset during query" = true
    ∧ MCPConnectionManager.hasConnection stEx.mgr "s1" = true
    ∧ MCPConnectionManager.hasConnection
        ((executeRoute "t" "s1"
          (CallToolOutcome.toolError "connection reset during query") false false stEx).1.mgr)
        "s1" = false :=
  ⟨by decide, by decide, by decide⟩

/-- Claim C6, amended.  A rejection of the pooled tool call is answered with
a 400 result whose error field carries the thrown message behind the Tool
execution failed prefix, and the connection entry is retained exactly when
the message does not contain connection, closed or disconnected — the route
cannot tell remote tool failures from transport ones except by that
substring heuristic. -/
theorem C6_remote_failure_amended (toolName serverId msg : String) (cf kf : Bool)
    (st : AppState) (h1 : toolName ≠ "") (h2 : serverId ≠ "")
    (h3 : (MCPConnectionManager.getConnection st.mgr serverId).isSome = true) :
    (executeRoute toolName serverId (CallToolOutcome.toolError msg) cf kf st).2
        = { status := 400, success := false, result := none,
            error := some ("Tool execution failed: " ++ msg) }
    ∧ (isConnectionErrorMsg msg = false →
        (executeRoute toolName serverId (CallToolOutcome.toolError msg) cf kf st).1 = st) := by
  have h := executeRoute_toolError toolName serverId msg cf kf st (by tauto) h3
  rw [h]
  refine ⟨rfl, ?_⟩
  intro hm
  simp [hm]

/-- Witness for the amended C6: a remote failure message free of the
heuristic substrings keeps the state untouched. -/
theorem C6_remote_failure_amended_witness :
    (executeRoute "t" "s1" (CallToolOutcome.toolError "boom") false false stEx).2
        = { status := 400, success := false, result := none,
            error := some ("Tool execution failed: " ++ "boom") }
    ∧ (executeRoute "t" "s1" (CallToolOutcome.toolError "boom") false false stEx).1 = stEx := by
  have h := C6_remote_failure_amended "t" "s1" "boom" false false stEx
    (by decide) (by decide) (by decide)
  exact ⟨h.1, h.2 (by decide)⟩

/-- Counterexample to claim C7 as stated.  On a transport failure (message
matching the broken-connection heuristic) the pooled entry is removed, but
the persisted status of the server stays connected: updateServerStatus is
never invoked by the execute path, so nothing writes error. -/
theorem C7_status_counterexample :
    isConnectionErrorMsg "connection closed" = true
    ∧ (MCPDatabase.getServer "s1"
        ((executeRoute "t" "s1" (CallToolOutcome.toolError "connection closed") false false
          stEx7).1.db)).map (fun s => s.status) = some Status.connected
    ∧ MCPConnectionManager.hasConnection
        ((executeRoute "t" "s1" (CallToolOutcome.toolError "connection closed") false false
          stEx7).1.mgr) "s1" = false
    ∧ Status.connected ≠ Status.error :=
  ⟨by decide, by decide, by decide, by decide⟩

/-- Claim C7, amended.  On a tool-call rejection whose message matches the
broken-connection heuristic, the connection entry is removed and a
structured 400 failure carrying the message is returned rather than a crash,
but the store — including the persisted server status — passes through the
route completely unchanged. -/
theorem C7_transport_failure_amended (toolName serverId msg : String) (cf kf : Bool)
    (st : AppState) (h1 : toolName ≠ "") (h2 : serverId ≠ "")
    (h3 : (MCPConnectionManager.getConnection st.mgr serverId).isSome = true)
    (hmsg : isConnectionErrorMsg msg = true) :
    (executeRoute toolName serverId (CallToolOutcome.toolError msg) cf kf st).2
        = { status := 400, success := false, result := none,
            error := some ("Tool execution failed: " ++ msg) }
    ∧ MCPConnectionManager.hasConnection
        (executeRoute toolName serverId (CallToolOutcome.toolError msg) cf kf st).1.mgr
        serverId = false
    ∧ (executeRoute toolName serverId (CallToolOutcome.toolError msg) cf kf st).1.db
        = st.db := by
  have h := executeRoute_toolError toolName serverId msg cf kf st (by tauto) h3
  rw [h]
  refine ⟨rfl, ?_, ?_⟩
  · simp only [hmsg, reduceIte]
    exact hasConnection_deleteRun st.mgr serverId
  · simp [hmsg]

/-- Witness for the amended C7 at a concrete broken-connection message. -/
theorem C7_transport_failure_amended_witness :
    (executeRoute "t" "s1" (CallToolOutcome.toolError "connection closed") false false
        stEx7).2
        = { status := 400, success := false, result := none,
            error := some ("Tool execution failed: " ++ "connection closed") }
    ∧ MCPConnectionManager.hasConnection
        (executeRoute "t" "s1" (CallToolOutcome.toolError "connection closed") false false
          stEx7).1.mgr "s1" = false
    ∧ (executeRoute "t" "s1" (CallToolOutcome.toolError "connection closed") false false
        stEx7).1.db = stEx7.db :=
  C7_transport_failure_amended "t" "s1" "connection closed" false false stEx7
    (by decide) (by decide) (by decide) (by decide)

/-- Claim C8.  Deleting a nonempty server id answers 200, afterwards the
server row is gone, its tool set reads empty, and its connection entry is
gone; every other id keeps its server row, tool set and connection; and
deleting an id with no row, no tools and no connection leaves the state
exactly unchanged (a no-op, and the route never throws since the manager
cleanup always returns ok). -/
theorem C8_delete_server_cascades (serverId : String) (cf kf : Bool) (st : AppState)
    (h : serverId ≠ "") :
    (deleteServerRoute serverId cf kf st).2 = 200
    ∧ MCPDatabase.getServer serverId (deleteServerRoute serverId cf kf st).1.db = none
    ∧ MCPDatabase.getToolsByServer serverId (deleteServerRoute serverId cf kf st).1.db = []
    ∧ MCPConnectionManager.hasConnection
        (deleteServerRoute serverId cf kf st).1.mgr serverId = false
    ∧ (∀ sid', sid' ≠ serverId →
        MCPDatabase.getServer sid' (deleteServerRoute serverId cf kf st).1.db
            = MCPDatabase.getServer sid' st.db
        ∧ MCPDatabase.getToolsByServer sid' (deleteServerRoute serverId cf kf st).1.db
            = MCPDatabase.getToolsByServer sid' st.db
        ∧ MCPConnectionManager.getConnection (deleteServerRoute serverId cf kf st).1.mgr sid'
            = MCPConnectionManager.getConnection st.mgr sid')
    ∧ (MCPDatabase.getServer serverId st.db = none →
        MCPDatabase.getToolsByServer serverId st.db = [] →
        MCPConnectionManager.hasConnection st.mgr serverId = false →
        (deleteServerRoute serverId cf kf st).1 = st) := by
  have hroute : deleteServerRoute serverId cf kf st
      = ({ db := MCPDatabase.deleteServer serverId st.db,
           mgr := deleteConnectionRun st.mgr serverId }, 200) := by
    simp only [deleteServerRoute, if_neg h, deleteConnection_ok]
  rw [hroute]
  refine ⟨rfl, ?_, ?_, hasConnection_deleteRun st.mgr serverId, ?_, ?_⟩
  · simp only [MCPDatabase.getServer, MCPDatabase.deleteServer]
    have hnone : (st.db.servers.filter (fun r => r.id != serverId)).find?
        (fun r => r.id == serverId) = none := by
      rw [List.find?_eq_none]
      intro x hx
      simpa using bne_iff_ne.mp (List.mem_filter.mp hx).2
    rw [hnone]
    rfl
  · simp only [MCPDatabase.getToolsByServer, MCPDatabase.deleteServer, deleteToolsByServerRows,
      List.filter_filter]
    have hnil : st.db.tools.filter
        (fun a => (a.serverId == serverId) && (a.serverId != serverId)) = [] := by
      rw [List.filter_eq_nil_iff]
      intro a _
      simp [bne]
    rw [hnil]
    rfl
  · intro sid' hsid
    refine ⟨?_, ?_, ?_⟩
    · simp only [MCPDatabase.getServer, MCPDatabase.deleteServer]
      rw [find?_filter_of_imp]
      intro x hx
      rw [beq_iff_eq.mp hx]
      exact bne_iff_ne.mpr hsid
    · simp only [MCPDatabase.getToolsByServer, MCPDatabase.deleteServer]
      rw [show (deleteToolsByServerRows serverId st.db.tools).filter
            (fun q => q.serverId == sid')
          = st.db.tools.filter (fun q => q.serverId == sid')
        from filter_other_delete serverId sid' hsid st.db.tools]
    · unfold deleteConnectionRun
      cases hf : st.mgr.connections.find? (fun p => p.1 == serverId) with
      | none => rfl
      | some c =>
        simp only [MCPConnectionManager.getConnection]
        rw [find?_filter_of_imp]
        intro x hx
        rw [beq_iff_eq.mp hx]
        exact bne_iff_ne.mpr hsid
  · intro hs ht hc
    have hfind : st.db.servers.find? (fun r => r.id == serverId) = none := by
      simp only [MCPDatabase.getServer] at hs
      simpa using hs
    have hsrv : st.db.servers.filter (fun r => r.id != serverId) = st.db.servers := by
      rw [List.filter_eq_self]
      intro r hr
      exact bne_iff_ne.mpr (by simpa using List.find?_eq_none.mp hfind r hr)
    have htl : st.db.tools.filter (fun q => q.serverId == serverId) = [] := by
      simp only [MCPDatabase.getToolsByServer] at ht
      simpa using ht
    have htools : st.db.tools.filter (fun q => q.serverId != serverId) = st.db.tools := by
      rw [List.filter_eq_self]
      intro r hr
      exact bne_iff_ne.mpr (by simpa using List.filter_eq_nil_iff.mp htl r hr)
    have hmgr := deleteRun_of_absent st.mgr serverId hc
    show ({ db := MCPDatabase.deleteServer serverId st.db,
            mgr := deleteConnectionRun st.mgr serverId } : AppState) = st
    rw [hmgr]
    simp only [MCPDatabase.deleteServer, deleteToolsByServerRows, hsrv, htools]

/-- Witness for C8: delete s1 from the two-server state, and delete a
missing id as a no-op, all hypotheses discharged concretely. -/
theorem C8_delete_server_cascades_witness :
    (deleteServerRoute "s1" false false stEx8).2 = 200
    ∧ MCPDatabase.getServer "s1" (deleteServerRoute "s1" false false stEx8).1.db = none
    ∧ MCPDatabase.getToolsByServer "s1" (deleteServerRoute "s1" false false stEx8).1.db = []
    ∧ MCPConnectionManager.hasConnection
        (deleteServerRoute "s1" false false stEx8).1.mgr "s1" = false
    ∧ MCPDatabase.getToolsByServer "s2" (deleteServerRoute "s1" false false stEx8).1.db
        = MCPDatabase.getToolsByServer "s2" stEx8.db
    ∧ (deleteServerRoute "missing" false false stEx8).1 = stEx8 := by
  have h := C8_delete_server_cascades "s1" false false stEx8 (by decide)
  have h2 := C8_delete_server_cascades "missing" false false stEx8 (by decide)
  exact ⟨h.1, h.2.1, h.2.2.1, h.2.2.2.1, (h.2.2.2.2.1 "s2" (by decide)).2.1,
    h2.2.2.2.2.2 rfl rfl (by decide)⟩

/-- Claim C9.  After saveServer(s), getServer(s.id) returns a server with
the same id, name, config, enabled flag and status as s but with an empty
tools list even when tools for s.id sit in the tools table; only
getServerWithTools joins the stored tools in. -/
theorem C9_getServer_roundtrip (db : DB) (s : MCPServer) :
    MCPDatabase.getServer s.id (MCPDatabase.saveServer s db)
        = some { id := s.id, name := s.name, config := s.config, enabled := s.enabled,
                 status := s.status, tools := [] }
    ∧ MCPDatabase.getServerWithTools s.id (MCPDatabase.saveServer s db)
        = some { id := s.id, name := s.name, config := s.config, enabled := s.enabled,
                 status := s.status,
                 tools := MCPDatabase.getToolsByServer s.id (MCPDatabase.saveServer s db) } := by
  have hfind : (MCPDatabase.saveServer s db).servers.find? (fun r => r.id == s.id)
      = some { id := s.id, name := s.name, config := s.config, enabled := s.enabled,
               status := s.status } := by
    simp only [MCPDatabase.saveServer, insertServerRow]
    rw [List.find?_append]
    have h1 : (db.servers.filter (fun q => q.id != s.id)).find? (fun r => r.id == s.id)
        = none := by
      rw [List.find?_eq_none]
      intro x hx
      simpa using bne_iff_ne.mp (List.mem_filter.mp hx).2
    rw [h1]
    simp [List.find?_cons]
  have hget : MCPDatabase.getServer s.id (MCPDatabase.saveServer s db)
      = some { id := s.id, name := s.name, config := s.config, enabled := s.enabled,
               status := s.status, tools := [] } := by
    simp [MCPDatabase.getServer, hfind]
  refine ⟨hget, ?_⟩
  simp [MCPDatabase.getServerWithTools, hget]

/-- Claim C10.  After every saveTools call the tool set stored for the
server is exactly the input with earlier duplicate names evicted — only the
last occurrence of each name survives, in order of last occurrence — and in
particular toolsByServer never returns two tools with the same name. -/
theorem C10_tools_unique_names (db : DB) (serverId : String) (tools : List MCPTool) :
    MCPDatabase.getToolsByServer serverId (MCPDatabase.saveTools serverId tools db)
        = keepLastByName tools
    ∧ ((MCPDatabase.getToolsByServer serverId
          (MCPDatabase.saveTools serverId tools db)).map (fun t => t.name)).Nodup := by
  have hchar : MCPDatabase.getToolsByServer serverId (MCPDatabase.saveTools serverId tools db)
      = keepLastByName tools := by
    simp only [MCPDatabase.getToolsByServer, MCPDatabase.saveTools, saveToolsInsertPhase,
      saveToolsDeletePhase]
    exact getTools_saveTools_rows serverId tools db.tools
  refine ⟨hchar, ?_⟩
  rw [hchar, keepLastByName]
  exact keepLastAux_nodup tools [] (by simp)

end PersonalAI
